import Mathlib

/-!
Shallow embedding of the corpus engine in honggfuzz's `input.c`, together with
proofs of the specification's testable properties.

Modelling conventions:
- machine integers (`size_t`, `uint64_t`) become `Nat`, with an explicit
  `% 2 ^ w` where the C code truncates;
- fatal paths (`LOG_F` / `PLOG_F`, which abort the process) and C undefined
  behaviour (division by zero, out-of-bounds array reads, NULL dereference)
  become `none` of an `Option` result;
- the intrusive `TAILQ` of `struct dynfile_t` becomes a `List dynfile_t`
  (head of the list = head of the queue), and the `dynfileqCurrent` pointer
  becomes an `Option Nat` index into that list (`none` models `NULL`);
  `io.dynfileqCnt` is always kept equal to the queue length by the code, so it
  is represented as `dynfileq.length`;
- filesystem state needed by `input_writeCovFile` is a `List (String × List Nat)`
  association list from file names to contents.
-/

/-- The corpus entry `struct dynfile_t` from honggfuzz.h: a byte buffer with its
size, the 4-element coverage tuple, the rank index, the per-entry test counter
and the provenance path. Bytes are `Nat`s; `cov` is the list of the four
`uint64_t` coverage values. -/
structure dynfile_t where
  data   : List Nat
  size   : Nat
  cov    : List Nat
  idx    : Nat
  tested : Nat
  path   : String
deriving DecidableEq

/-- The scanning loop of `input_cmpCov` (input.c): walk the coverage values in
parallel; the first strictly greater value decides `true`, the first strictly
smaller decides `false`; exhausting both arrays ("both are equal") gives
`false`. -/
def covGt : List Nat → List Nat → Bool
  | a :: as, b :: bs =>
    if a > b then true
    else if a < b then false
    else covGt as bs
  | _, _ => false

/-- input.c `input_cmpCov`: "true if item1 is bigger than item2", lexicographic
over the coverage tuples. -/
def input_cmpCov (item1 item2 : dynfile_t) : Bool :=
  covGt item1.cov item2.cov

/-- The fuzzing phase returned by `fuzz_getState` (an external collaborator).
Only equality with `_HF_STATE_DYNAMIC_MAIN` matters to `input.c`; every other
state is treated as "not main". -/
inductive FuzzState where
  | dynamicDryRun : FuzzState
  | dynamicMain   : FuzzState
  | otherState    : FuzzState
deriving DecidableEq

/-- The corpus-related part of `hfuzz->io`: the dynamic file queue, the
selection cursor (an index modelling the `dynfileqCurrent` pointer, `none` for
`NULL`) and `dynfileqMaxSz`.  `dynfileqCnt` is `dynfileq.length`. -/
structure IoState where
  dynfileq        : List dynfile_t
  dynfileqCurrent : Option Nat
  dynfileqMaxSz   : Nat
deriving DecidableEq

/-- The empty corpus: the state right after initialization, before any
`input_addDynamicInput` call. -/
def emptyIoState : IoState :=
  { dynfileq := [], dynfileqCurrent := none, dynfileqMaxSz := 0 }

/-- The `TAILQ_FOREACH_HF` insertion loop of `input_addDynamicInput`
(non-main branch): insert `dynfile` before the first `iter` with
`input_cmpCov dynfile iter`; if no such element exists, append at the tail.
Also returns the position at which the element landed, so that the pointer
identity of the cursor can be tracked as an index. -/
def insertByCov (dynfile : dynfile_t) : List dynfile_t → List dynfile_t × Nat
  | [] => ([dynfile], 0)
  | iter :: rest =>
    if input_cmpCov dynfile iter then
      (dynfile :: iter :: rest, 0)
    else
      ((insertByCov dynfile rest).1.cons iter, (insertByCov dynfile rest).2 + 1)

/-- input.c `input_addDynamicInput`, restricted to its effect on the corpus
state.  A fresh `dynfile_t` is built with `idx` equal to the pre-insertion
count and `tested = 0`; in `_HF_STATE_DYNAMIC_MAIN` it is prepended and the
cursor is re-pointed at the new head (`TAILQ_INSERT_HEAD` followed by
`dynfileqCurrent = TAILQ_FIRST`), otherwise it is inserted by coverage order
and the cursor pointer is left on whatever node it was on (as an index:
shifted by one when the insertion happened at or before it).  The persistence
side effects (`input_writeCovFile`, `newUnitsAdded`) do not touch this state
and are modelled separately. -/
def input_addDynamicInput (state : FuzzState) (st : IoState)
    (data : List Nat) (cov : List Nat) (path : String) : IoState :=
  let dynfile : dynfile_t :=
    { data := data, size := data.length, cov := cov,
      idx := st.dynfileq.length, tested := 0, path := path }
  if state = FuzzState.dynamicMain then
    { dynfileq := dynfile :: st.dynfileq,
      dynfileqCurrent := some 0,
      dynfileqMaxSz := max st.dynfileqMaxSz data.length }
  else
    { dynfileq := (insertByCov dynfile st.dynfileq).1,
      dynfileqCurrent :=
        match st.dynfileqCurrent with
        | none => none
        | some i =>
          if (insertByCov dynfile st.dynfileq).2 ≤ i then some (i + 1) else some i,
      dynfileqMaxSz := max st.dynfileqMaxSz data.length }

/-- A whole sequence of `input_addDynamicInput` calls, each with its own phase,
data, coverage tuple and path, applied head first. -/
def addAll (adds : List (FuzzState × List Nat × List Nat × String))
    (st : IoState) : IoState :=
  adds.foldl (fun s a => input_addDynamicInput a.1 s a.2.1 a.2.2.1 a.2.2.2) st

/-- The 101-entry `scaleMap` table of `input_numTests` (input.c), written out
from its designated initializers: indices 0-90 hold 1, 91-92 hold 2, 93-94
hold 3, 95-96 hold 4, 97-98 hold 5, and 99-100 hold 10. -/
def scaleMap : List Nat :=
  List.replicate 91 1 ++ [2, 2, 3, 3, 4, 4, 5, 5, 10, 10]

/-- input.c `input_numTests`: number of tests for an input, based on its
percentile bucket.  `none` models the fatal `LOG_F` when `idx > total`, the C
undefined division by zero when `total = 0`, and an out-of-bounds table read
(which the theorems show cannot happen for in-range percentiles). -/
def input_numTests (idx total : Nat) : Option Nat :=
  if idx > total then none
  else if total = 0 then none
  else scaleMap.get? ((idx * 100) / total)

/-- The quota table exactly as the specification words it: quota 1 for
percentiles 0-90, 2 for 91-92, 3 for 93-94, 4 for 95-96, 5 for 97-98 and 10
for 99-100. -/
def quotaSpec (p : Nat) : Nat :=
  if p ≤ 90 then 1
  else if p ≤ 92 then 2
  else if p ≤ 94 then 3
  else if p ≤ 96 then 4
  else if p ≤ 98 then 5
  else 10

/-- The per-worker run state `run_t` as `input_setSize` and
`input_prepareDynamicInput` touch it: the logical buffer size
`dynamicFileSz`, the process-wide cap `run->global->mutate.maxInputSz`, the
buffer contents `dynamicFile`, and `truncs`, a trace of the sizes passed to
`ftruncate` on the backing file (so that "performs no work" is observable in
the model; on the non-CygWin, non-Darwin build the truncation is performed
whenever the size actually changes). -/
structure run_t where
  dynamicFileSz : Nat
  maxInputSz    : Nat
  dynamicFile   : List Nat
  truncs        : List Nat
deriving DecidableEq

/-- input.c `input_setSize`: early return when the requested size equals the
current logical size; fatal `PLOG_F` (modelled as `none`) when the request
exceeds `maxInputSz`; otherwise truncate the backing file and record the new
logical size. -/
def input_setSize (run : run_t) (sz : Nat) : Option run_t :=
  if run.dynamicFileSz = sz then some run
  else if sz > run.maxInputSz then none
  else some { run with dynamicFileSz := sz, truncs := run.truncs ++ [sz] }

/-- input.c `input_prepareDynamicInput`: fatal (`none`) on an empty corpus;
re-head a `NULL` cursor; serve the current entry, bumping its `tested`
counter by one and, once the counter reaches `input_numTests current.idx
dynfileqCnt`, resetting it to zero and advancing the cursor to the next node
(`none` past the tail); then resize the worker buffer to the entry's size and
copy its bytes in.  `needs_mangle` hands the buffer to the external mutation
engine, modelled by the function argument `mangle`.  A dangling cursor index
(impossible for states produced by this code) would be a NULL dereference and
is also `none`. -/
def input_prepareDynamicInput (st : IoState) (run : run_t)
    (needs_mangle : Bool) (mangle : run_t → run_t) : Option (IoState × run_t) :=
  if st.dynfileq.length = 0 then none
  else
    let curIdx : Nat :=
      match st.dynfileqCurrent with
      | none => 0
      | some i => i
    match st.dynfileq.get? curIdx with
    | none => none
    | some current =>
      match input_numTests current.idx st.dynfileq.length with
      | none => none
      | some testCnt =>
        let st1 : IoState :=
          if current.tested + 1 ≥ testCnt then
            { st with
              dynfileq := st.dynfileq.set curIdx { current with tested := 0 },
              dynfileqCurrent :=
                if curIdx + 1 < st.dynfileq.length then some (curIdx + 1) else none }
          else
            { st with
              dynfileq := st.dynfileq.set curIdx { current with tested := current.tested + 1 },
              dynfileqCurrent := some curIdx }
        match input_setSize run current.size with
        | none => none
        | some run1 =>
          let run2 : run_t := { run1 with dynamicFile := current.data }
          some (st1, if needs_mangle then mangle run2 else run2)

/-- Iterated serial calls to `input_prepareDynamicInput`, threading both the
corpus state and the worker state; any fatal call makes the whole sequence
`none`. -/
def prepareN (needs_mangle : Bool) (mangle : run_t → run_t) :
    Nat → IoState → run_t → Option (IoState × run_t)
  | 0, st, run => some (st, run)
  | n + 1, st, run =>
    match input_prepareDynamicInput st run needs_mangle mangle with
    | none => none
    | some sr => prepareN needs_mangle mangle n sr.1 sr.2

/-- The corpus state in the middle of a quota round: the entry at position `i`
carries `tested = t`, everything else is as in `st`, and the cursor sits on
position `i`. -/
def stateAt (st : IoState) (i : Nat) (node : dynfile_t) (t : Nat) : IoState :=
  { st with
    dynfileq := st.dynfileq.set i { node with tested := t },
    dynfileqCurrent := some i }

/-- The corpus state right after a quota round on the entry at position `i`
completed: its `tested` counter is back to zero and the cursor moved to the
next node (`none` past the tail). -/
def stateAfter (st : IoState) (i : Nat) (node : dynfile_t) : IoState :=
  { st with
    dynfileq := st.dynfileq.set i { node with tested := 0 },
    dynfileqCurrent :=
      if i + 1 < st.dynfileq.length then some (i + 1) else none }

/-- The walking loop of `input_renumerateInputs`: hand the counter value to
the current node and decrement it for the rest of the walk. -/
def renumerate_go : Nat → List dynfile_t → List dynfile_t
  | _, [] => []
  | i, iter :: rest => { iter with idx := i } :: renumerate_go (i - 1) rest

/-- input.c `input_renumerateInputs`: walk the queue from head to tail,
assigning `idx = dynfileqCnt, dynfileqCnt - 1, ...` (the C post-decrement
`iter->idx = idx--`). -/
def input_renumerateInputs (q : List dynfile_t) : List dynfile_t :=
  renumerate_go q.length q

/-- One `readdir` result as `input_getDirStatsAndRewind` inspects it: whether
`stat` succeeded, whether the entry is a regular file, and its size. -/
structure DirEnt where
  statOk : Bool
  isReg  : Bool
  size   : Nat
deriving DecidableEq

/-- The traversal loop of `input_getDirStatsAndRewind`: skip entries whose
`stat` fails and non-regular entries; for each regular file raise the running
`maxInputSz` to its size if larger (the over-`maxFileSz` case only logs) and
count it. -/
def dirScan : Nat → Nat → List DirEnt → Nat × Nat
  | fileCnt, maxInputSz, [] => (fileCnt, maxInputSz)
  | fileCnt, maxInputSz, entry :: rest =>
    if entry.statOk = false then dirScan fileCnt maxInputSz rest
    else if entry.isReg = false then dirScan fileCnt maxInputSz rest
    else
      dirScan (fileCnt + 1)
        (if entry.size > maxInputSz then entry.size else maxInputSz) rest

/-- input.c `input_getDirStatsAndRewind`, as a function of the directory
listing: returns the published `fileCnt` and the final `mutate.maxInputSz`.
`defaultSz` and `maxSz` stand for the compile-time constants
`_HF_INPUT_DEFAULT_SIZE` and `_HF_INPUT_MAX_SIZE` from honggfuzz.h (not part
of input.c), and `maxInputSz0` is the value of `mutate.maxInputSz` on entry.
After the traversal: if `maxFileSz` is set it wins outright, otherwise the
observed maximum is clamped below by `defaultSz` and above by `maxSz`. -/
def input_getDirStatsAndRewind (defaultSz maxSz maxFileSz maxInputSz0 : Nat)
    (entries : List DirEnt) : Nat × Nat :=
  let scanned := dirScan 0 maxInputSz0 entries
  let m :=
    if maxFileSz ≠ 0 then maxFileSz
    else if scanned.2 < defaultSz then defaultSz
    else if scanned.2 > maxSz then maxSz
    else scanned.2
  (scanned.1, m)

/-- The maximum size over the usable (stat-able, regular) entries of a
directory listing, zero when there are none: the quantity the specification
calls "the maximum of the observed regular-file sizes". -/
def maxObserved (entries : List DirEnt) : Nat :=
  ((entries.filter (fun e => e.statOk && e.isReg)).map DirEnt.size).foldr max 0

/-- Zero-padded lowercase hexadecimal rendering of a number, the `%0<w>x`
printf conversion for values that fit the field. -/
def hexPad (w n : Nat) : String :=
  String.mk (List.replicate (w - (Nat.toDigits 16 n).length) '0' ++ Nat.toDigits 16 n)

/-- The `snprintf` of `input_writeCovFile`:
`%s/%016PRIx64%016PRIx64.%08PRIx32.honggfuzz.cov` applied to the directory,
the two CRC64 values and the length truncated to `uint32_t`.  The CRC
routines `util_CRC64` and `util_CRC64Rev` live in libhfcommon (outside
input.c) and are taken as function parameters; their `uint64_t` range is
reflected by the explicit `% 2 ^ 64`. -/
def covFileName (crcF crcR : List Nat → Nat) (dir : String) (data : List Nat) : String :=
  dir ++ "/" ++ hexPad 16 (crcF data % 2 ^ 64) ++ hexPad 16 (crcR data % 2 ^ 64)
      ++ "." ++ hexPad 8 (data.length % 2 ^ 32) ++ ".honggfuzz.cov"

/-- input.c `input_writeCovFile` over a model filesystem (an association list
from names to contents): build the CRC-addressed name; if `files_exists` finds
it, report success and leave the filesystem alone; otherwise create the file
exclusively and write the buffer. -/
def input_writeCovFile (crcF crcR : List Nat → Nat)
    (fs : List (String × List Nat)) (dir : String) (data : List Nat) :
    Bool × List (String × List Nat) :=
  let fname := covFileName crcF crcR dir data
  if (fs.lookup fname).isSome then (true, fs)
  else (true, (fname, data) :: fs)

/-- The reading loop of `input_parseBlacklist`, over the already-parsed
`strtoull(line, 0, 16)` value of each line.  The new value is stored at index
`blacklistCnt`; only when `blacklistCnt > 1` does the code compare the entry
at `blacklistCnt - 1` against the new one and abort (`LOG_F`, modelled as
`none`) if the former is larger; then the count is incremented. -/
def parseBlacklist_go (blacklist : List Nat) : List Nat → Option (List Nat)
  | [] => some blacklist
  | v :: rest =>
    if blacklist.length > 1 ∧
        (blacklist ++ [v]).getD (blacklist.length - 1) 0 >
          (blacklist ++ [v]).getD blacklist.length 0 then
      none
    else
      parseBlacklist_go (blacklist ++ [v]) rest

/-- input.c `input_parseBlacklist` as a function of the parsed line values:
run the loop, then report the count; an empty blacklist is the fatal
`LOG_F ("Empty stack hashes blacklist file")`. -/
def input_parseBlacklist (lines : List Nat) : Option Nat :=
  match parseBlacklist_go [] lines with
  | none => none
  | some blacklist =>
    if blacklist.length > 0 then some blacklist.length else none

/-- The sortedness invariant of the specification: for every adjacent pair
`(a, b)` of queue entries in head-to-tail order, `cmpCov(b, a)` is false. -/
def covOrdered (q : List dynfile_t) : Prop :=
  List.Chain' (fun a b => input_cmpCov b a = false) q

/-! ## Helper lemmas -/

theorem scaleMap_get_eq_quotaSpec : ∀ p : Nat, p < 101 → scaleMap.get? p = some (quotaSpec p) := by
  decide

theorem scaleMap_pos : ∀ v ∈ scaleMap, 1 ≤ v := by decide

theorem percentile_le_100 (idx total : Nat) (h1 : idx ≤ total) (h2 : 0 < total) :
    (idx * 100) / total ≤ 100 := by
  calc (idx * 100) / total ≤ (total * 100) / total :=
        Nat.div_le_div_right (Nat.mul_le_mul_right 100 h1)
    _ = 100 := Nat.mul_div_cancel_left 100 h2

/-! ## C4: the quota table -/

/-- C4: for `1 ≤ count` and `idx ≤ count`, `input_numTests idx count` returns
exactly the table value at `percentile = (idx * 100) / count` — 1 for
percentiles 0-90, 2 for 91-92, 3 for 93-94, 4 for 95-96, 5 for 97-98, 10 for
99-100 (the `quotaSpec` table, worded from the specification) — and any call
with `idx > count` is fatal. -/
theorem input_numTests_table (idx count i c : Nat)
    (h1 : 1 ≤ count) (h2 : idx ≤ count) (h3 : c < i) :
    input_numTests idx count = some (quotaSpec ((idx * 100) / count)) ∧
    input_numTests i c = none := by
  constructor
  · have hp : (idx * 100) / count ≤ 100 := percentile_le_100 idx count h2 h1
    unfold input_numTests
    rw [if_neg (by omega), if_neg (by omega)]
    exact scaleMap_get_eq_quotaSpec _ (by omega)
  · unfold input_numTests
    rw [if_pos (by omega)]

/-- Witness for C4 at `idx = 95`, `count = 100` (percentile 95, quota 4) and
the fatal call `input_numTests 7 3`. -/
theorem input_numTests_table_witness :
    1 ≤ 100 ∧ 95 ≤ 100 ∧ 3 < 7 ∧
      (input_numTests 95 100 = some (quotaSpec ((95 * 100) / 100)) ∧
        input_numTests 7 3 = none) :=
  ⟨by decide, by decide, by decide,
    input_numTests_table 95 100 7 3 (by decide) (by decide) (by decide)⟩

/-! ## C10: totality of the quota computation under the callers' preconditions -/

/-- C10: under the callers' preconditions (`input_prepareDynamicInput` is
fatal when the corpus count is zero, so `0 < total`; `input_numTests` itself
is fatal when `idx > total`), the percentile `(idx * 100) / total` never
divides by zero, lies in `[0, 100]`, and indexes the 101-entry `scaleMap`
table in bounds, so the call returns a value; with `total = 0` and `idx = 0`
nothing inside `input_numTests` guards the division, which is the modelled
failure `input_numTests 0 0 = none`. -/
theorem input_numTests_total_safe (idx total : Nat) (h1 : idx ≤ total) (h2 : 0 < total) :
    (idx * 100) / total ≤ 100 ∧
    (idx * 100) / total < scaleMap.length ∧
    (input_numTests idx total).isSome = true ∧
    input_numTests 0 0 = none := by
  have hp : (idx * 100) / total ≤ 100 := percentile_le_100 idx total h1 h2
  have hlen : scaleMap.length = 101 := by decide
  refine ⟨hp, by omega, ?_, by decide⟩
  unfold input_numTests
  rw [if_neg (by omega), if_neg (by omega), scaleMap_get_eq_quotaSpec _ (by omega)]
  rfl

/-- Witness for C10 at `idx = 7`, `total = 9`. -/
theorem input_numTests_total_safe_witness :
    7 ≤ 9 ∧ 0 < 9 ∧
      ((7 * 100) / 9 ≤ 100 ∧
       (7 * 100) / 9 < scaleMap.length ∧
       (input_numTests 7 9).isSome = true ∧
       input_numTests 0 0 = none) :=
  ⟨by decide, by decide, input_numTests_total_safe 7 9 (by decide) (by decide)⟩

/-! ## C1: the blacklist parser misses the first out-of-order pair -/

/-- C1: evaluation of `input_parseBlacklist` at the decisive inputs.  The
specification says loading `0x10\n0x05\n` is fatal, but because the
sortedness check is guarded by `blacklistCnt > 1` the pair formed by the
first two entries is never compared, and the file loads with count 2 — the
same result as the correctly ordered `0x05\n0x10\n`.  From the third entry on
the check does fire: `0x10\n0x05\n0x04\n` is fatal, as is `0x05\n0x10\n0x02\n`. -/
theorem input_parseBlacklist_firstPairUnchecked :
    input_parseBlacklist [0x10, 0x05] = some 2 ∧
    input_parseBlacklist [0x05, 0x10] = some 2 ∧
    input_parseBlacklist [0x10, 0x05, 0x04] = none ∧
    input_parseBlacklist [0x05, 0x10, 0x02] = none ∧
    input_parseBlacklist [] = none := by
  decide

/-! ## C9: the size contract of input_setSize -/

/-- C9 counterexample: the claim says every request with `sz > maxInputSz` is
fatal, but the `dynamicFileSz == sz` early return is checked first: with
`dynamicFileSz = 5`, `maxInputSz = 3` and `sz = 5 > 3`, `input_setSize`
returns successfully (and unchanged) instead of failing. -/
theorem input_setSize_oversize_noop_cex :
    5 > 3 ∧
    input_setSize { dynamicFileSz := 5, maxInputSz := 3, dynamicFile := [], truncs := [] } 5 =
      some { dynamicFileSz := 5, maxInputSz := 3, dynamicFile := [], truncs := [] } := by
  decide

/-- C9 as amended: for `sz ≤ maxInputSz` the call succeeds and sets
`dynamicFileSz` to `sz`, and an immediately repeated call performs no work
(it returns the very same state, in particular without touching the backing
file again); a request with `sz > maxInputSz` is fatal unless it equals the
current `dynamicFileSz`, in which case the no-op early return wins. -/
theorem input_setSize_contract (run : run_t) (sz : Nat) :
    (sz ≤ run.maxInputSz →
      (input_setSize run sz).map run_t.dynamicFileSz = some sz ∧
      (input_setSize run sz).bind (fun run1 => input_setSize run1 sz) =
        input_setSize run sz) ∧
    (sz > run.maxInputSz → run.dynamicFileSz ≠ sz → input_setSize run sz = none) := by
  constructor
  · intro hle
    by_cases heq : run.dynamicFileSz = sz
    · constructor
      · rw [input_setSize, if_pos heq]
        simp [heq]
      · rw [input_setSize, if_pos heq]
        simp [input_setSize, heq]
    · constructor
      · rw [input_setSize, if_neg heq, if_neg (by omega)]
        rfl
      · rw [input_setSize, if_neg heq, if_neg (by omega)]
        simp [input_setSize]
  · intro hgt hne
    rw [input_setSize, if_neg hne, if_pos hgt]

/-- Witness for C9's amended contract: the success branch at
`run = { dynamicFileSz := 0, maxInputSz := 10, ... }`, `sz = 4`, and the
fatal branch at `run = { dynamicFileSz := 1, maxInputSz := 3, ... }`,
`sz = 7`. -/
theorem input_setSize_contract_witness :
    ((input_setSize { dynamicFileSz := 0, maxInputSz := 10, dynamicFile := [], truncs := [] } 4).map run_t.dynamicFileSz = some 4 ∧
     (input_setSize { dynamicFileSz := 0, maxInputSz := 10, dynamicFile := [], truncs := [] } 4).bind
        (fun run1 => input_setSize run1 4) =
       input_setSize { dynamicFileSz := 0, maxInputSz := 10, dynamicFile := [], truncs := [] } 4) ∧
    input_setSize { dynamicFileSz := 1, maxInputSz := 3, dynamicFile := [], truncs := [] } 7 = none :=
  ⟨(input_setSize_contract { dynamicFileSz := 0, maxInputSz := 10, dynamicFile := [], truncs := [] } 4).1 (by decide),
   (input_setSize_contract { dynamicFileSz := 1, maxInputSz := 3, dynamicFile := [], truncs := [] } 7).2 (by decide) (by decide)⟩

/-! ## C6: main-phase insertion goes to the head, cursor follows -/

/-- C6: an `input_addDynamicInput` call in the `DYNAMIC_MAIN` phase places the
new entry (with `idx` the pre-insertion count and `tested = 0`) at the head of
the queue regardless of its coverage tuple, and points `dynfileqCurrent` at
that new head. -/
theorem input_addDynamicInput_mainPhase (st : IoState) (data cov : List Nat) (path : String) :
    (input_addDynamicInput FuzzState.dynamicMain st data cov path).dynfileq =
      { data := data, size := data.length, cov := cov,
        idx := st.dynfileq.length, tested := 0, path := path } :: st.dynfileq ∧
    (input_addDynamicInput FuzzState.dynamicMain st data cov path).dynfileqCurrent = some 0 :=
  ⟨rfl, rfl⟩

/-! ## C7: the CRC-addressed persister is deterministic and idempotent -/

/-- C7: the cov file name depends only on the two CRC64 values and the length
of the buffer — so two identical buffers always yield identical names — and
`input_writeCovFile` reports success and is idempotent under retry: once a
call has stored (or found) the file, running it again on the resulting
filesystem finds the name and returns success without writing anything. -/
theorem input_writeCovFile_deterministic_idempotent
    (crcF crcR : List Nat → Nat) (fs : List (String × List Nat))
    (dir : String) (data other : List Nat)
    (hf : crcF other = crcF data) (hr : crcR other = crcR data)
    (hl : other.length = data.length) :
    covFileName crcF crcR dir other = covFileName crcF crcR dir data ∧
    (input_writeCovFile crcF crcR fs dir data).1 = true ∧
    input_writeCovFile crcF crcR (input_writeCovFile crcF crcR fs dir data).2 dir data =
      (true, (input_writeCovFile crcF crcR fs dir data).2) := by
  refine ⟨by rw [covFileName, covFileName, hf, hr, hl], ?_, ?_⟩
  · rw [input_writeCovFile]
    by_cases h : (fs.lookup (covFileName crcF crcR dir data)).isSome
    · rw [if_pos h]
    · rw [if_neg h]
  · by_cases h : (fs.lookup (covFileName crcF crcR dir data)).isSome
    · have h2 : input_writeCovFile crcF crcR fs dir data = (true, fs) := by
        rw [input_writeCovFile, if_pos h]
      rw [h2, input_writeCovFile, if_pos h]
    · have h2 : input_writeCovFile crcF crcR fs dir data =
          (true, (covFileName crcF crcR dir data, data) :: fs) := by
        rw [input_writeCovFile, if_neg h]
      rw [h2, input_writeCovFile, if_pos (by simp [List.lookup])]

/-- Witness for C7 with constant CRC functions, an empty filesystem and the
buffer `[1, 2, 3]` compared against itself. -/
theorem input_writeCovFile_deterministic_idempotent_witness :
    covFileName (fun _ => 255) (fun _ => 16) "dir" [1, 2, 3] =
      covFileName (fun _ => 255) (fun _ => 16) "dir" [1, 2, 3] ∧
    (input_writeCovFile (fun _ => 255) (fun _ => 16) [] "dir" [1, 2, 3]).1 = true ∧
    input_writeCovFile (fun _ => 255) (fun _ => 16)
        (input_writeCovFile (fun _ => 255) (fun _ => 16) [] "dir" [1, 2, 3]).2 "dir" [1, 2, 3] =
      (true, (input_writeCovFile (fun _ => 255) (fun _ => 16) [] "dir" [1, 2, 3]).2) :=
  input_writeCovFile_deterministic_idempotent (fun _ => 255) (fun _ => 16) [] "dir"
    [1, 2, 3] [1, 2, 3] rfl rfl rfl

/-! ## C8: the size bound computed by the directory scan -/

theorem dirScan_snd (entries : List DirEnt) :
    ∀ fileCnt m, (dirScan fileCnt m entries).2 = max m (maxObserved entries) := by
  induction entries with
  | nil => intro fileCnt m; simp [dirScan, maxObserved]
  | cons e rest ih =>
    intro fileCnt m
    cases hs : e.statOk with
    | false =>
      rw [dirScan, if_pos (by rw [hs]), ih]
      simp [maxObserved, hs]
    | true =>
      cases hr : e.isReg with
      | false =>
        rw [dirScan, if_neg (by rw [hs]; simp), if_pos (by rw [hr]), ih]
        simp [maxObserved, hs, hr]
      | true =>
        rw [dirScan, if_neg (by rw [hs]; simp), if_neg (by rw [hr]; simp), ih]
        have hobs : maxObserved (e :: rest) = max e.size (maxObserved rest) := by
          simp [maxObserved, hs, hr]
        rw [hobs]
        rcases Nat.lt_or_ge m e.size with h | h
        · rw [if_pos (by omega)]; omega
        · rw [if_neg (by omega)]; omega

/-- C8: starting from `mutate.maxInputSz = 0`, after
`input_getDirStatsAndRewind` the resulting `maxInputSz` is `maxFileSz`
whenever that is non-zero, and otherwise the maximum of the observed
regular-file sizes clamped into the interval `[defaultSz, maxSz]`
(`_HF_INPUT_DEFAULT_SIZE`, `_HF_INPUT_MAX_SIZE`). -/
theorem input_getDirStatsAndRewind_maxInputSz
    (defaultSz maxSz maxFileSz : Nat) (entries : List DirEnt)
    (hdm : defaultSz ≤ maxSz) :
    (input_getDirStatsAndRewind defaultSz maxSz maxFileSz 0 entries).2 =
      if maxFileSz ≠ 0 then maxFileSz
      else max defaultSz (min maxSz (maxObserved entries)) := by
  have hscan : (dirScan 0 0 entries).2 = maxObserved entries := by
    rw [dirScan_snd]; omega
  by_cases hz : maxFileSz ≠ 0
  · rw [input_getDirStatsAndRewind, if_pos hz]
    simp [hz]
  · rw [if_neg hz]
    rw [input_getDirStatsAndRewind]
    simp only [hz, if_neg, hscan, ite_false, not_true_eq_false]
    rcases Nat.lt_or_ge (maxObserved entries) defaultSz with h | h
    · rw [if_pos h]; omega
    · rw [if_neg (by omega)]
      rcases Nat.lt_or_ge maxSz (maxObserved entries) with h2 | h2
      · rw [if_pos (by omega)]; omega
      · rw [if_neg (by omega)]; omega

/-- Witness for C8: three regular seeds of sizes 10, 200 and 5000 with
`maxFileSz = 0`, `defaultSz = 1024` and `maxSz = 1048576`; the instantiated
conclusion evaluates to `maxInputSz = 5000`. -/
theorem input_getDirStatsAndRewind_maxInputSz_witness :
    ((input_getDirStatsAndRewind 1024 1048576 0 0
        [{ statOk := true, isReg := true, size := 10 },
         { statOk := true, isReg := true, size := 200 },
         { statOk := true, isReg := true, size := 5000 }]).2 =
      if (0 : Nat) ≠ 0 then 0
      else max 1024 (min 1048576 (maxObserved
        [{ statOk := true, isReg := true, size := 10 },
         { statOk := true, isReg := true, size := 200 },
         { statOk := true, isReg := true, size := 5000 }]))) ∧
    (input_getDirStatsAndRewind 1024 1048576 0 0
        [{ statOk := true, isReg := true, size := 10 },
         { statOk := true, isReg := true, size := 200 },
         { statOk := true, isReg := true, size := 5000 }]).2 = 5000 :=
  ⟨input_getDirStatsAndRewind_maxInputSz 1024 1048576 0
      [{ statOk := true, isReg := true, size := 10 },
       { statOk := true, isReg := true, size := 200 },
       { statOk := true, isReg := true, size := 5000 }] (by decide),
   by decide⟩

/-! ## C5: renumeration assigns count, count-1, ..., 1 -/

theorem renumerate_go_map : ∀ (i : Nat) (q : List dynfile_t),
    (renumerate_go i q).map dynfile_t.idx = (List.range q.length).map (fun k => i - k) := by
  intro i q
  induction q generalizing i with
  | nil => simp [renumerate_go]
  | cons d rest ih =>
    simp only [renumerate_go, List.map_cons, List.length_cons,
      List.range_succ_eq_map, List.map_map]
    rw [ih]
    have hfun : ((fun k => i - k) ∘ Nat.succ) = (fun k => i - 1 - k) := by
      funext k
      simp only [Function.comp]
      omega
    rw [hfun]
    simp

theorem range_map_sub_perm : ∀ n : Nat,
    ((List.range n).map (fun k => n - k)).Perm (List.range' 1 n) := by
  intro n
  induction n with
  | zero => simp
  | succ n ih =>
    rw [List.range_succ_eq_map, List.map_cons, List.map_map]
    have hfun : ((fun k => n + 1 - k) ∘ Nat.succ) = (fun k => n - k) := by
      funext k
      simp only [Function.comp]
      omega
    rw [hfun, Nat.sub_zero, List.range'_concat]
    have hadd : 1 + 1 * n = n + 1 := by omega
    rw [hadd]
    exact (List.Perm.cons _ ih).trans
      (List.perm_append_singleton (n + 1) (List.range' 1 n)).symm

/-- C5: after `input_renumerateInputs` on a queue of `count` entries, the
`idx` fields read `count, count - 1, ..., 1` in head-to-tail order; hence
they are strictly decreasing from head to tail and form exactly the multiset
`{1, ..., count}` (a permutation of `[1, ..., count]`). -/
theorem input_renumerateInputs_idx (q : List dynfile_t) :
    (input_renumerateInputs q).map dynfile_t.idx =
      (List.range q.length).map (fun k => q.length - k) ∧
    List.Pairwise (fun a b : Nat => a > b)
      ((input_renumerateInputs q).map dynfile_t.idx) ∧
    ((input_renumerateInputs q).map dynfile_t.idx).Perm (List.range' 1 q.length) := by
  have h1 : (input_renumerateInputs q).map dynfile_t.idx =
      (List.range q.length).map (fun k => q.length - k) :=
    renumerate_go_map q.length q
  refine ⟨h1, ?_, ?_⟩
  · rw [h1, List.pairwise_map]
    have hbase : (List.range q.length).Pairwise (· < ·) := List.pairwise_lt_range _
    refine hbase.imp_of_mem ?_
    intro a b ha hb hab
    have hb' : b < q.length := List.mem_range.mp hb
    omega
  · rw [h1]
    exact range_map_sub_perm q.length

/-! ## C2: non-main insertions keep the queue coverage-sorted -/

theorem covGt_asymm : ∀ a b : List Nat, covGt a b = true → covGt b a = false := by
  intro a
  induction a with
  | nil => intro b h; cases b <;> simp [covGt] at h
  | cons x xs ih =>
    intro b h
    cases b with
    | nil => simp [covGt] at h
    | cons y ys =>
      rcases Nat.lt_trichotomy x y with hxy | hxy | hxy
      · rw [covGt, if_neg (by omega), if_pos hxy] at h
        simp at h
      · subst hxy
        rw [covGt, if_neg (by omega), if_neg (by omega)] at h
        rw [covGt, if_neg (by omega), if_neg (by omega)]
        exact ih ys h
      · rw [covGt, if_neg (by omega), if_pos (by omega)]

theorem insertByCov_head (d : dynfile_t) (q : List dynfile_t) :
    ((insertByCov d q).1).head? = some d ∨ ((insertByCov d q).1).head? = q.head? := by
  cases q with
  | nil => left; rfl
  | cons x xs =>
    by_cases h : input_cmpCov d x
    · left; simp [insertByCov, h]
    · right; simp [insertByCov, h]

theorem insertByCov_covOrdered (d : dynfile_t) (q : List dynfile_t)
    (h : covOrdered q) : covOrdered (insertByCov d q).1 := by
  induction q with
  | nil =>
    rw [covOrdered]
    simp [insertByCov]
  | cons x xs ih =>
    rw [covOrdered, List.chain'_cons'] at h
    obtain ⟨hx, hxs⟩ := h
    by_cases hc : input_cmpCov d x
    · rw [covOrdered]
      have hres : (insertByCov d (x :: xs)).1 = d :: x :: xs := by
        simp [insertByCov, hc]
      rw [hres, List.chain'_cons]
      exact ⟨covGt_asymm _ _ hc, List.chain'_cons'.mpr ⟨hx, hxs⟩⟩
    · have hres : (insertByCov d (x :: xs)).1 = x :: (insertByCov d xs).1 := by
        simp [insertByCov, hc]
      rw [covOrdered, hres, List.chain'_cons']
      refine ⟨?_, ih hxs⟩
      intro b hb
      rcases insertByCov_head d xs with hh | hh
      · rw [hh] at hb
        simp only [Option.mem_def, Option.some_inj] at hb
        subst hb
        exact Bool.not_eq_true _ ▸ (by simpa using hc)
      · rw [hh] at hb
        exact hx b hb

theorem addAll_covOrdered_aux :
    ∀ (adds : List (FuzzState × List Nat × List Nat × String)) (st : IoState),
      (∀ a ∈ adds, a.1 ≠ FuzzState.dynamicMain) → covOrdered st.dynfileq →
      covOrdered (addAll adds st).dynfileq := by
  intro adds
  induction adds with
  | nil => intro st _ hst; simpa [addAll] using hst
  | cons a rest ih =>
    intro st h hst
    have ha : a.1 ≠ FuzzState.dynamicMain := h a (List.mem_cons_self a rest)
    have hun : addAll (a :: rest) st =
        addAll rest (input_addDynamicInput a.1 st a.2.1 a.2.2.1 a.2.2.2) := rfl
    rw [hun]
    refine ih _ (fun b hb => h b (List.mem_cons_of_mem a hb)) ?_
    have hstep : (input_addDynamicInput a.1 st a.2.1 a.2.2.1 a.2.2.2).dynfileq =
        (insertByCov
          { data := a.2.1, size := a.2.1.length, cov := a.2.2.1,
            idx := st.dynfileq.length, tested := 0, path := a.2.2.2 }
          st.dynfileq).1 := by
      rw [input_addDynamicInput, if_neg ha]
    rw [hstep]
    exact insertByCov_covOrdered _ _ hst

/-- C2: starting from the empty corpus, after any sequence of
`input_addDynamicInput` calls none of which happens in the `DYNAMIC_MAIN`
phase, the queue is coverage-sorted: for every adjacent pair `(a, b)` in
head-to-tail order, `input_cmpCov b a` (the lexicographic strictly-greater
comparison of the coverage tuples) is false. -/
theorem addAll_covOrdered (adds : List (FuzzState × List Nat × List Nat × String))
    (h : adds.all (fun a => a.1 != FuzzState.dynamicMain) = true) :
    covOrdered (addAll adds emptyIoState).dynfileq := by
  refine addAll_covOrdered_aux adds emptyIoState ?_ ?_
  · intro a ha
    have := List.all_eq_true.mp h a ha
    simpa using this
  · rw [covOrdered]
    simp [emptyIoState]

/-- Witness for C2: the specification's scenario 3 — four dry-run insertions
with coverage tuples `(1,0,0,0)`, `(3,0,0,0)`, `(2,5,0,0)`, `(2,4,0,0)` —
run from the empty corpus. -/
theorem addAll_covOrdered_witness :
    ([(FuzzState.dynamicDryRun, ([0], ([1, 0, 0, 0], "a"))),
      (FuzzState.dynamicDryRun, ([0], ([3, 0, 0, 0], "b"))),
      (FuzzState.dynamicDryRun, ([0], ([2, 5, 0, 0], "c"))),
      (FuzzState.dynamicDryRun, ([0], ([2, 4, 0, 0], "d")))].all
        (fun a => a.1 != FuzzState.dynamicMain) = true) ∧
    covOrdered (addAll
      [(FuzzState.dynamicDryRun, ([0], ([1, 0, 0, 0], "a"))),
       (FuzzState.dynamicDryRun, ([0], ([3, 0, 0, 0], "b"))),
       (FuzzState.dynamicDryRun, ([0], ([2, 5, 0, 0], "c"))),
       (FuzzState.dynamicDryRun, ([0], ([2, 4, 0, 0], "d")))] emptyIoState).dynfileq :=
  ⟨by decide,
   addAll_covOrdered
     [(FuzzState.dynamicDryRun, ([0], ([1, 0, 0, 0], "a"))),
      (FuzzState.dynamicDryRun, ([0], ([3, 0, 0, 0], "b"))),
      (FuzzState.dynamicDryRun, ([0], ([2, 5, 0, 0], "c"))),
      (FuzzState.dynamicDryRun, ([0], ([2, 4, 0, 0], "d")))] (by decide)⟩

/-! ## C3: the per-entry quota round of input_prepareDynamicInput -/

theorem get?_set_self {α : Type} : ∀ (l : List α) (i : Nat) (a : α), i < l.length →
    (l.set i a).get? i = some a := by
  intro l
  induction l with
  | nil => intro i a h; simp at h
  | cons x xs ih =>
    intro i a h
    cases i with
    | zero => rfl
    | succ j => exact ih j a (by simpa using h)

theorem set_get?_self {α : Type} : ∀ (l : List α) (i : Nat) (a : α),
    l.get? i = some a → l.set i a = l := by
  intro l
  induction l with
  | nil => intro i a h; simp at h
  | cons x xs ih =>
    intro i a h
    cases i with
    | zero =>
      simp only [List.get?] at h
      injection h with hxa
      subst hxa
      rfl
    | succ j =>
      simp only [List.get?] at h
      rw [List.set, ih j a h]

theorem input_setSize_some (run : run_t) (sz : Nat) (h : sz ≤ run.maxInputSz) :
    ∃ run1, input_setSize run sz = some run1 ∧ run1.maxInputSz = run.maxInputSz := by
  by_cases heq : run.dynamicFileSz = sz
  · exact ⟨run, by rw [input_setSize, if_pos heq], rfl⟩
  · exact ⟨{ run with dynamicFileSz := sz, truncs := run.truncs ++ [sz] },
      by rw [input_setSize, if_neg heq, if_neg (by omega)], rfl⟩

theorem input_numTests_one_le (a b q : Nat) (h : input_numTests a b = some q) : 1 ≤ q := by
  rw [input_numTests] at h
  split at h
  · cases h
  · split at h
    · cases h
    · exact scaleMap_pos q (List.get?_mem h)

theorem prepare_step (S : IoState) (run1 : run_t) (i : Nat) (cur : dynfile_t) (q : Nat)
    (hcur : S.dynfileqCurrent = some i)
    (hget : S.dynfileq.get? i = some cur)
    (hq : input_numTests cur.idx S.dynfileq.length = some q)
    (hsz : cur.size ≤ run1.maxInputSz) :
    ∃ run2, input_prepareDynamicInput S run1 false id =
        some ((if cur.tested + 1 ≥ q then
                 { S with dynfileq := S.dynfileq.set i { cur with tested := 0 },
                          dynfileqCurrent :=
                            if i + 1 < S.dynfileq.length then some (i + 1) else none }
               else
                 { S with dynfileq := S.dynfileq.set i { cur with tested := cur.tested + 1 },
                          dynfileqCurrent := some i }), run2) ∧
      run2.maxInputSz = run1.maxInputSz := by
  have hi : i < S.dynfileq.length := by
    rcases List.get?_eq_some.mp hget with ⟨h, _⟩
    exact h
  have hlen' : ¬(S.dynfileq.length = 0) := by omega
  obtain ⟨run2, hset, hpres⟩ := input_setSize_some run1 cur.size hsz
  refine ⟨{ run2 with dynamicFile := cur.data }, ?_, by simp [hpres]⟩
  simp only [input_prepareDynamicInput, hcur, hget, hq, hset, if_neg hlen']
  rfl

theorem prepare_step_stay (st : IoState) (i : Nat) (node : dynfile_t) (q t : Nat) (run1 : run_t)
    (hi : i < st.dynfileq.length)
    (hq : input_numTests node.idx st.dynfileq.length = some q)
    (hsz : node.size ≤ run1.maxInputSz)
    (hlt : t + 1 < q) :
    ∃ run2, input_prepareDynamicInput (stateAt st i node t) run1 false id =
        some (stateAt st i node (t + 1), run2) ∧ run2.maxInputSz = run1.maxInputSz := by
  obtain ⟨run2, hstep, hpres⟩ := prepare_step (stateAt st i node t) run1 i
    { node with tested := t } q rfl
    (get?_set_self _ _ _ (by simpa [stateAt] using hi))
    (by simpa [stateAt] using hq)
    (by simpa using hsz)
  refine ⟨run2, ?_, hpres⟩
  rw [hstep, if_neg (by simpa using (by omega : ¬(t + 1 ≥ q)))]
  simp [stateAt, List.set_set]

theorem prepare_step_last (st : IoState) (i : Nat) (node : dynfile_t) (q t : Nat) (run1 : run_t)
    (hi : i < st.dynfileq.length)
    (hq : input_numTests node.idx st.dynfileq.length = some q)
    (hsz : node.size ≤ run1.maxInputSz)
    (hge : q ≤ t + 1) :
    ∃ run2, input_prepareDynamicInput (stateAt st i node t) run1 false id =
        some (stateAfter st i node, run2) ∧ run2.maxInputSz = run1.maxInputSz := by
  obtain ⟨run2, hstep, hpres⟩ := prepare_step (stateAt st i node t) run1 i
    { node with tested := t } q rfl
    (get?_set_self _ _ _ (by simpa [stateAt] using hi))
    (by simpa [stateAt] using hq)
    (by simpa using hsz)
  refine ⟨run2, ?_, hpres⟩
  rw [hstep, if_pos (by simpa using (by omega : t + 1 ≥ q))]
  simp [stateAt, stateAfter, List.set_set]

theorem prepareN_run (st : IoState) (i : Nat) (node : dynfile_t) (q : Nat)
    (hi : i < st.dynfileq.length)
    (hq : input_numTests node.idx st.dynfileq.length = some q) :
    ∀ (n t : Nat) (run1 : run_t), node.size ≤ run1.maxInputSz → 1 ≤ n → t + n ≤ q →
      ∃ run2, prepareN false id n (stateAt st i node t) run1 =
          some ((if t + n = q then stateAfter st i node else stateAt st i node (t + n)), run2) ∧
        run2.maxInputSz = run1.maxInputSz := by
  intro n
  induction n with
  | zero => intro t run1 _ h1 _; exact absurd h1 (by omega)
  | succ m ih =>
    intro t run1 hsz hone hle
    by_cases hm : m = 0
    · subst hm
      by_cases hq1 : t + 1 = q
      · obtain ⟨run2, hstep, hpres⟩ := prepare_step_last st i node q t run1 hi hq hsz (by omega)
        refine ⟨run2, ?_, hpres⟩
        simp only [prepareN, hstep]
        rw [if_pos hq1]
      · obtain ⟨run2, hstep, hpres⟩ := prepare_step_stay st i node q t run1 hi hq hsz (by omega)
        refine ⟨run2, ?_, hpres⟩
        simp only [prepareN, hstep]
        rw [if_neg hq1]
    · have hlt : t + 1 < q := by omega
      obtain ⟨run2, hstep, hpres⟩ := prepare_step_stay st i node q t run1 hi hq hsz hlt
      obtain ⟨run3, hrest, hpres3⟩ := ih (t + 1) run2 (by omega) (by omega) (by omega)
      refine ⟨run3, ?_, by omega⟩
      simp only [prepareN, hstep]
      rw [hrest]
      have harith : t + 1 + m = t + (m + 1) := by omega
      rw [harith]

theorem state_eq_stateAt_zero (st : IoState) (i : Nat) (node : dynfile_t)
    (hcur : st.dynfileqCurrent = some i) (hget : st.dynfileq.get? i = some node)
    (ht0 : node.tested = 0) : st = stateAt st i node 0 := by
  have hnode : { node with tested := 0 } = node := by rw [← ht0]
  rw [stateAt, hnode, set_get?_self _ _ _ hget, ← hcur]

/-- C3: a corpus entry at cursor position `i` with `tested = 0` whose quota is
`q = input_numTests idx count` is served by `n ≤ q` consecutive serial
`input_prepareDynamicInput` calls as follows: while `n < q` the cursor stays
on the entry and its `tested` counter reads exactly `n`; at the `q`-th call
`tested` is reset to 0 and the cursor advances to the next node (`none` past
the end of the queue); consequently the entry's `tested` counter is below the
quota at every point outside the selection critical section. -/
theorem input_prepareDynamicInput_quota
    (st : IoState) (run : run_t) (i n : Nat) (node : dynfile_t) (q : Nat)
    (hcur : st.dynfileqCurrent = some i)
    (hget : st.dynfileq.get? i = some node)
    (ht0 : node.tested = 0)
    (hq : input_numTests node.idx st.dynfileq.length = some q)
    (hsz : node.size ≤ run.maxInputSz)
    (hn : n ≤ q) :
    (n < q → (prepareN false id n st run).map Prod.fst = some (stateAt st i node n)) ∧
    (n = q → (prepareN false id n st run).map Prod.fst = some (stateAfter st i node)) ∧
    (prepareN false id n st run).map (fun sr => sr.1.dynfileq.get? i) =
      some (some { node with tested := if n = q then 0 else n }) ∧
    (if n = q then 0 else n) < q := by
  have hi : i < st.dynfileq.length := by
    rcases List.get?_eq_some.mp hget with ⟨h, _⟩
    exact h
  have hq1 : 1 ≤ q := input_numTests_one_le _ _ _ hq
  have hst0 : st = stateAt st i node 0 := state_eq_stateAt_zero st i node hcur hget ht0
  have hnode : { node with tested := 0 } = node := by rw [← ht0]
  by_cases hcase : n = 0
  · subst hcase
    have h0 : prepareN false id 0 st run = some (st, run) := rfl
    have hif : (if (0 : Nat) = q then (0 : Nat) else 0) = 0 := by
      rw [if_neg (by omega)]
    refine ⟨fun _ => ?_, fun hz => absurd hz.symm (by omega), ?_, ?_⟩
    · rw [h0]
      exact congrArg some hst0
    · rw [h0, hif]
      simp only [Option.map_some']
      rw [hnode]
      simpa using hget
    · rw [hif]
      omega
  · obtain ⟨run2, hrun, hpres⟩ :=
      prepareN_run st i node q hi hq n 0 run hsz (by omega) (by omega)
    rw [← hst0] at hrun
    have h0n : 0 + n = n := by omega
    rw [h0n] at hrun
    refine ⟨?_, ?_, ?_, ?_⟩
    · intro hlt
      rw [hrun, if_neg (by omega)]
      rfl
    · intro heq
      rw [hrun, if_pos (by omega)]
      rfl
    · by_cases he : n = q
      · rw [hrun, if_pos he, if_pos he]
        have hg := get?_set_self st.dynfileq i { node with tested := 0 } hi
        simp only [stateAfter, Option.map_some']
        simpa using hg
      · rw [hrun, if_neg he, if_neg he]
        have hg := get?_set_self st.dynfileq i { node with tested := n } hi
        simp only [stateAt, Option.map_some']
        simpa using hg
    · by_cases he : n = q
      · rw [if_pos he]
        omega
      · rw [if_neg he]
        omega

/-- Witness for C3: a single-entry corpus (`idx = 1`, `count = 1`, so
percentile 100 and quota 10) driven through `n = 10` serial calls. -/
theorem input_prepareDynamicInput_quota_witness :
    (10 < 10 →
      (prepareN false id 10
          { dynfileq := [{ data := [7], size := 1, cov := [0, 0, 0, 0], idx := 1, tested := 0, path := "x" }],
            dynfileqCurrent := some 0, dynfileqMaxSz := 1 }
          { dynamicFileSz := 0, maxInputSz := 100, dynamicFile := [], truncs := [] }).map Prod.fst =
        some (stateAt
          { dynfileq := [{ data := [7], size := 1, cov := [0, 0, 0, 0], idx := 1, tested := 0, path := "x" }],
            dynfileqCurrent := some 0, dynfileqMaxSz := 1 } 0
          { data := [7], size := 1, cov := [0, 0, 0, 0], idx := 1, tested := 0, path := "x" } 10)) ∧
    (10 = 10 →
      (prepareN false id 10
          { dynfileq := [{ data := [7], size := 1, cov := [0, 0, 0, 0], idx := 1, tested := 0, path := "x" }],
            dynfileqCurrent := some 0, dynfileqMaxSz := 1 }
          { dynamicFileSz := 0, maxInputSz := 100, dynamicFile := [], truncs := [] }).map Prod.fst =
        some (stateAfter
          { dynfileq := [{ data := [7], size := 1, cov := [0, 0, 0, 0], idx := 1, tested := 0, path := "x" }],
            dynfileqCurrent := some 0, dynfileqMaxSz := 1 } 0
          { data := [7], size := 1, cov := [0, 0, 0, 0], idx := 1, tested := 0, path := "x" })) ∧
    (prepareN false id 10
        { dynfileq := [{ data := [7], size := 1, cov := [0, 0, 0, 0], idx := 1, tested := 0, path := "x" }],
          dynfileqCurrent := some 0, dynfileqMaxSz := 1 }
        { dynamicFileSz := 0, maxInputSz := 100, dynamicFile := [], truncs := [] }).map
        (fun sr => sr.1.dynfileq.get? 0) =
      some (some { data := [7], size := 1, cov := [0, 0, 0, 0], idx := 1,
                   tested := if 10 = 10 then 0 else 10, path := "x" }) ∧
    (if 10 = 10 then 0 else 10) < 10 :=
  input_prepareDynamicInput_quota
    { dynfileq := [{ data := [7], size := 1, cov := [0, 0, 0, 0], idx := 1, tested := 0, path := "x" }],
      dynfileqCurrent := some 0, dynfileqMaxSz := 1 }
    { dynamicFileSz := 0, maxInputSz := 100, dynamicFile := [], truncs := [] }
    0 10
    { data := [7], size := 1, cov := [0, 0, 0, 0], idx := 1, tested := 0, path := "x" }
    10 rfl rfl rfl (by decide) (by decide) (by decide)
